import Mathlib

/-!
Verification of the reimv image viewer's display-surface lifecycle and
input/render coordination engine, shallowly embedded from the Rust sources
(`src/main.rs`, `src/window.rs`, `src/repeat.rs`).

Floating-point (`f32`/`f64`) arithmetic in the transform engine is embedded
over `ℚ` (exact arithmetic, as the algebraic claims are stated); `u32`
arithmetic wraps modulo `2^32` as in a release build; Rust `Option` maps to
`Option`, `HashSet<ObjectId>` to a duplicate-free `List Nat` of object ids,
and `Vec<Output>` to `List Output`.
-/

namespace Reimv

/-- Image transform state: offset in surface-local coordinates and a scale
factor (`ImageTransform` in `src/image.rs`, fields `x`, `y`, `scale`). -/
structure ImageTransform where
  x : ℚ
  y : ℚ
  scale : ℚ
  deriving DecidableEq, Repr

/-- High-level actions emitted by the input router (`Action` in `src/main.rs`). -/
inductive Action where
  | MoveLeft
  | MoveRight
  | MoveUp
  | MoveDown
  | Zoom (x y val : ℚ)
  | ToggleFullscreen
  deriving DecidableEq, Repr

/-- Transform part of `State::handle_action` (src/main.rs lines 168-188):
pans move the offset by 5% of the window dimension; `Zoom` computes
`delta_scale = val * prev_scale * -0.01` and translates the offset so that
the anchor keeps its image-local coordinate. `ToggleFullscreen` only sends a
protocol request and leaves the transform unchanged. -/
def applyAction (width height : Nat) (t : ImageTransform) : Action → ImageTransform
  | .MoveLeft => { t with x := t.x + (width : ℚ) * (5 / 100) }
  | .MoveRight => { t with x := t.x - (width : ℚ) * (5 / 100) }
  | .MoveUp => { t with y := t.y + (height : ℚ) * (5 / 100) }
  | .MoveDown => { t with y := t.y - (height : ℚ) * (5 / 100) }
  | .Zoom ax ay val =>
      let prev_scale := t.scale
      let delta_scale := val * prev_scale * (-1 / 100)
      { x := t.x + (t.x - ax) * delta_scale / prev_scale
        y := t.y + (t.y - ay) * delta_scale / prev_scale
        scale := t.scale + delta_scale }
  | .ToggleFullscreen => t

/-- Window state (`Window` in `src/window.rs`): the protocol object handles are
omitted (they are constants for the single window); `outputs` is the set of
ids of outputs the surface currently overlaps, `scale120` the fractional
scale numerator (denominator 120), `wl_frame_cb` the at-most-one outstanding
frame token, modelled by the token's numeric identity. -/
structure Window where
  outputs : List Nat
  scale120 : Option Nat
  mapped : Bool
  wl_frame_cb : Option Nat
  width : Nat
  height : Nat
  fullscreen : Bool
  closed : Bool
  deriving DecidableEq, Repr

/-- Initial window state established by `Window::new` (src/window.rs lines
68-85): unmapped, no frame token, 400x300, not fullscreen, not closed, no
fractional scale, no overlapped outputs. -/
def Window.new : Window :=
  { outputs := []
    scale120 := none
    mapped := false
    wl_frame_cb := none
    width := 400
    height := 300
    fullscreen := false
    closed := false }

/-- Embedding of `Window::request_frame` (src/window.rs lines 88-100): only
when the window is mapped and no frame token is outstanding does it register
a fresh token and commit the surface. The returned `Bool` records whether a
surface commit was issued. -/
def Window.request_frame (w : Window) (fresh : Nat) : Window × Bool :=
  if w.mapped = true ∧ w.wl_frame_cb = none then
    ({ w with wl_frame_cb := some fresh }, true)
  else
    (w, false)

/-- One registry-bound output (`Output` in `src/main.rs`): registry name, the
protocol object id (standing for the `WlOutput` handle) and integer scale. -/
structure Output where
  reg_name : Nat
  id : Nat
  scale : Nat
  deriving DecidableEq, Repr

/-- Maximum of a list of naturals with `Iterator::max().unwrap_or(1)`
semantics: 1 on the empty list, the maximum element otherwise. -/
def maxOr1 : List Nat → Nat
  | [] => 1
  | x :: xs => xs.foldr Nat.max x

/-- Wrap to 32 bits, the behaviour of `u32` arithmetic in a release build. -/
def wrap32 (n : Nat) : Nat := n % 2 ^ 32

/-- Embedding of `Window::get_int_scale` (src/window.rs lines 151-162): with a
fractional scale reported, `(scale120 + 119) / 120` over wrapping `u32`
arithmetic (the ceiling of `scale120 / 120` absent overflow); otherwise the
maximum integer scale among the outputs the surface overlaps, defaulting
to 1. -/
def Window.get_int_scale (w : Window) (outputs : List Output) : Nat :=
  match w.scale120 with
  | some scale120 => wrap32 (scale120 + 119) / 120
  | none => maxOr1 ((outputs.filter (fun o => w.outputs.contains o.id)).map Output.scale)

/-- Pixel dimension computed in `Window::frame` when a fractional scale is set
(src/window.rs line 109): `(logical * scale120 + 60) / 120`, rounding half
away from zero, over wrapping `u32` arithmetic. -/
def pixDim (logical scale120 : Nat) : Nat :=
  wrap32 (wrap32 (logical * scale120) + 60) / 120

/-- Buffer sizing part of `Window::frame` (src/window.rs lines 106-127):
returns pixel width, pixel height, stride and the `scale_f` factor handed to
the renderer. With a fractional scale the dimensions are rounded half away
from zero and `scale_f = scale120 / 120`; otherwise the integer scale
multiplies the logical dimensions. Stride is pixel width times 4. -/
def frameBufferSpec (w : Window) (outputs : List Output) : Nat × Nat × Nat × ℚ :=
  match w.scale120 with
  | some scale120 =>
      (pixDim w.width scale120, pixDim w.height scale120,
        wrap32 (pixDim w.width scale120 * 4), (scale120 : ℚ) / 120)
  | none =>
      let scale := w.get_int_scale outputs
      (wrap32 (w.width * scale), wrap32 (w.height * scale),
        wrap32 (wrap32 (w.width * scale) * 4), (scale : ℚ))

/-- Split a byte list into exact chunks of four, dropping any remainder
(`chunks_exact(4)` over the `states` array in `xdg_toplevel_cb`). -/
def chunks4 : List Nat → List (Nat × Nat × Nat × Nat)
  | a :: b :: c :: d :: rest => (a, b, c, d) :: chunks4 rest
  | _ => []

/-- Little-endian `u32::from_ne_bytes` on a chunk of four bytes (x86-64 native
endianness). -/
def u32FromNeBytes : Nat × Nat × Nat × Nat → Nat
  | (a, b, c, d) => a + 256 * b + 65536 * c + 16777216 * d

/-- Valid `xdg_toplevel::State` discriminants accepted by `try_from`
(maximized 1 .. suspended 9); `Fullscreen` is 2. -/
def xdgStateValid (v : Nat) : Bool := 1 ≤ v && v ≤ 9

/-- Fullscreen flag computed by the `Configure` arm of `xdg_toplevel_cb`
(src/window.rs lines 243-248): decode the states byte array in chunks of
four, keep valid discriminants, and test for `Fullscreen` (= 2). -/
def computeFullscreen (states : List Nat) : Bool :=
  (((chunks4 states).map u32FromNeBytes).filter xdgStateValid).any (fun v => v == 2)

/-- Embedding of the `Configure` arm of `xdg_toplevel_cb` (src/window.rs lines
236-249): a positive width/height replaces the stored one, zero or negative
leaves it unchanged; `fullscreen` is recomputed from the states array. -/
def xdgToplevelConfigure (w : Window) (ew eh : Int) (states : List Nat) : Window :=
  let w := if ew > 0 then { w with width := ew.toNat } else w
  let w := if eh > 0 then { w with height := eh.toNat } else w
  { w with fullscreen := computeFullscreen states }

/-- `Vec::swap_remove(i)`: overwrite index `i` with the last element and pop. -/
def swapRemove {α : Type} (l : List α) (i : Nat) : List α :=
  match l.getLast? with
  | none => l
  | some last => (l.set i last).take (l.length - 1)

/-- Embedding of the `GlobalRemove` arm of `wl_registry_cb` (src/main.rs lines
354-361): if some bound output carries the removed registry name, it is
swap-removed from the output table and its object id is scrubbed from the
window's membership set. -/
def globalRemove (outputs : List Output) (w : Window) (name : Nat) :
    List Output × Window :=
  match outputs.findIdx? (fun o => o.reg_name == name) with
  | none => (outputs, w)
  | some i =>
      match outputs[i]? with
      | none => (outputs, w)
      | some o =>
          (swapRemove outputs i,
            { w with outputs := w.outputs.filter (fun x => x ≠ o.id) })

/-! Event-driven machine over the shared `State` of `src/main.rs`, covering the
handlers that read or write the window, the output table and the image
transform. Protocol side effects (buffer attach, damage, commit) are
abstracted to a count of executed redraws; the `assert!(this.mapped)` at the
top of `Window::frame` is tracked by a boolean that goes false exactly when
`frame` runs on an unmapped window. -/

/-- Machine state: the window, the bound output table, the image transform, a
source of fresh frame-token identities, the number of `Window::frame`
executions, and whether the `mapped` assertion has held so far. -/
structure MState where
  window : Window
  outputs : List Output
  img : ImageTransform
  nextCb : Nat
  redraws : Nat
  mappedAssertOk : Bool
  deriving DecidableEq, Repr

/-- Initial machine state after `main`'s setup (src/main.rs lines 58-88):
fresh window, identity transform, no outputs bound yet. -/
def initState : MState :=
  { window := Window.new
    outputs := []
    img := { x := 0, y := 0, scale := 1 }
    nextCb := 0
    redraws := 0
    mappedAssertOk := true }

/-- Embedding of `Window::frame` (src/window.rs lines 102-149) at the machine
level: the `assert!(this.mapped)` fails when the window is unmapped; when
mapped, one redraw is rendered and committed. No window field is mutated. -/
def doFrame (s : MState) : MState :=
  if s.window.mapped = true then { s with redraws := s.redraws + 1 }
  else { s with mappedAssertOk := false }

/-- `request_frame` at the machine level, drawing the fresh token identity
from `nextCb`. -/
def mRequestFrame (s : MState) : MState :=
  let (w, committed) := s.window.request_frame s.nextCb
  if committed then { s with window := w, nextCb := s.nextCb + 1 }
  else s

/-- Embedding of `State::handle_action` (src/main.rs lines 168-188): mutate
the transform, then execute `Window::frame` unconditionally. -/
def handleAction (s : MState) (a : Action) : MState :=
  doFrame { s with img := applyAction s.window.width s.window.height s.img a }

/-- Protocol events and synthetic actions dispatched by the event loop. -/
inductive Ev where
  | surfaceEnter (out : Nat)
  | surfaceLeave (out : Nat)
  | preferredBufferScale (scale : Int)
  | xdgConfigure
  | fractionalPreferredScale (scale120 : Nat)
  | toplevelConfigure (w h : Int) (states : List Nat)
  | toplevelClose
  | frameDone (cb : Nat)
  | action (a : Action)
  | outputScale (id : Nat) (scale : Nat)
  | globalRemoveEv (name : Nat)
  deriving DecidableEq, Repr

/-- One dispatch step, combining `wl_surface_cb`, `xdg_surface_cb`,
`fractional_scale_cb`, `xdg_toplevel_cb` (src/window.rs), the frame-done
closure registered in `request_frame`, `State::handle_action`, `wl_output_cb`
and the `GlobalRemove` arm of `wl_registry_cb` (src/main.rs). -/
def step (s : MState) : Ev → MState
  | .surfaceEnter o =>
      let outs := if s.window.outputs.contains o then s.window.outputs
                  else o :: s.window.outputs
      mRequestFrame { s with window := { s.window with outputs := outs } }
  | .surfaceLeave o =>
      mRequestFrame
        { s with window :=
            { s.window with outputs := s.window.outputs.filter (fun x => x ≠ o) } }
  | .preferredBufferScale _ => mRequestFrame s
  | .xdgConfigure =>
      if s.window.mapped = true then doFrame s
      else doFrame { s with window := { s.window with mapped := true } }
  | .fractionalPreferredScale v =>
      if s.window.scale120 = some v then s
      else mRequestFrame { s with window := { s.window with scale120 := some v } }
  | .toplevelConfigure ew eh sts =>
      { s with window := xdgToplevelConfigure s.window ew eh sts }
  | .toplevelClose => { s with window := { s.window with closed := true } }
  | .frameDone cb =>
      if s.window.wl_frame_cb = some cb then
        doFrame { s with window := { s.window with wl_frame_cb := none } }
      else s
  | .action a => handleAction s a
  | .outputScale i sc =>
      let outs := s.outputs.map (fun o => if o.id = i then { o with scale := sc } else o)
      let s2 := { s with outputs := outs }
      if s2.window.outputs.contains i then doFrame s2 else s2
  | .globalRemoveEv name =>
      let r := globalRemove s.outputs s.window name
      { s with outputs := r.1, window := r.2 }

/-- Run a list of events through `step`. -/
def run (s : MState) (es : List Ev) : MState := es.foldl step s

/-! Input router: move transaction (wl_pointer button/leave arms) and the
two-finger pinch gesture (`pointer_pinch_cb`). Seats are modelled by their
numeric identity; `move_transaction : Option Nat` holds the owning seat. -/

/-- Left pointer button code used by `wl_pointer_cb` (src/main.rs line 383). -/
def LEFT_PTR_BUTTON : Nat := 272

/-- Pointer button state as delivered by the protocol. -/
inductive ButtonState where
  | Pressed
  | Released
  deriving DecidableEq, Repr

/-- Embedding of the `Button` arm of `wl_pointer_cb` (src/main.rs lines
431-457): a left press with no active transaction starts one owned by the
event's seat; a left release clears it only when the owner matches; every
other combination leaves the transaction untouched. -/
def pointerButton (mt : Option Nat) (seat button : Nat) (bs : ButtonState) :
    Option Nat :=
  match button == LEFT_PTR_BUTTON, bs, mt with
  | true, .Pressed, none => some seat
  | true, .Released, some owner => if owner == seat then none else some owner
  | _, _, m => m

/-- Embedding of the `Leave` arm of `wl_pointer_cb` (src/main.rs lines
408-415): the transaction is cleared only when the leaving seat owns it. -/
def pointerLeave (mt : Option Nat) (seat : Nat) : Option Nat :=
  match mt with
  | some owner => if owner == seat then none else some owner
  | none => none

/-- Pinch gesture state (`PinchGestureState` in `src/main.rs`): the scale
reported by the previous update and the transform snapshot taken at gesture
begin. -/
structure PinchGestureState where
  prev_scale : ℚ
  fallback_transform : ImageTransform
  deriving DecidableEq, Repr

/-- Parameters of one `Update` event of `pointer_pinch_cb`: the pan delta,
the absolute gesture scale, and the pointer position used as zoom anchor. -/
structure PinchUpdate where
  dx : ℚ
  dy : ℚ
  scale : ℚ
  px : ℚ
  py : ℚ
  deriving DecidableEq, Repr

/-- `Begin` arm of `pointer_pinch_cb` (src/main.rs lines 498-510): a
two-finger begin captures the current transform as rollback snapshot and
resets `prev_scale` to 1; other finger counts change nothing. -/
def pinchBegin (fingers : Nat) (img : ImageTransform)
    (st : Option PinchGestureState) : ImageTransform × Option PinchGestureState :=
  if fingers = 2 then (img, some { prev_scale := 1, fallback_transform := img })
  else (img, st)

/-- `Update` arm of `pointer_pinch_cb` (src/main.rs lines 511-519): pan by
`(dx, dy)`, then apply `Action::Zoom` anchored at the pointer with magnitude
`(new_scale - prev_scale) * -100`, and remember the new scale. -/
def pinchUpdateStep (width height : Nat) (img : ImageTransform)
    (s : PinchGestureState) (u : PinchUpdate) : ImageTransform × PinchGestureState :=
  let val := (u.scale - s.prev_scale) * (-100)
  let img1 := { img with x := img.x + u.dx, y := img.y + u.dy }
  let img2 := applyAction width height img1 (.Zoom u.px u.py val)
  (img2, { s with prev_scale := u.scale })

/-- `End` arm of `pointer_pinch_cb` (src/main.rs lines 520-533): with the
`cancelled` flag set (= 1) the transform is hard-reset to the captured
snapshot; the gesture state is cleared either way. -/
def pinchEnd (cancelled : Nat) (img : ImageTransform) (s : PinchGestureState) :
    ImageTransform × Option PinchGestureState :=
  (if cancelled = 1 then s.fallback_transform else img, none)

/-- Whole cancelled gesture: two-finger begin from transform `t0` with no
gesture active, any sequence of updates, then an end carrying the cancelled
flag; returns the resulting transform. -/
def cancelledPinchGesture (width height : Nat) (t0 : ImageTransform)
    (us : List PinchUpdate) : ImageTransform :=
  match pinchBegin 2 t0 none with
  | (img1, some s1) =>
      let r := us.foldl (fun p u => pinchUpdateStep width height p.1 p.2 u) (img1, s1)
      (pinchEnd 1 r.1 r.2).1
  | (img1, none) => img1

/-! Repeat timer (`src/repeat.rs`). Instants are natural numbers of
nanoseconds; `saturating_duration_since` is truncated subtraction and
`Duration::as_millis` divides by 1000000 (truncating). -/

/-- Nanoseconds per millisecond, the divisor applied by `as_millis`. -/
def nsPerMs : Nat := 1000000

/-- Repeat info: delay and interval, in nanoseconds. -/
structure RepeatInfo where
  delay : Nat
  interval : Nat
  deriving DecidableEq, Repr

/-- Repeat timer state (`RepeatState` in `src/repeat.rs`). -/
inductive RepeatState where
  | None
  | Delay (info : RepeatInfo) (delay_will_end : Nat) (action : Action) (key : Nat)
  | Repeat (info : RepeatInfo) (next_repeat : Nat) (action : Action) (key : Nat)
  deriving DecidableEq, Repr

/-- Embedding of `RepeatState::tick` (src/repeat.rs lines 46-90) with the
current instant `now` passed explicitly: a `Delay` whose remaining time has
zero whole milliseconds fires once and becomes `Repeat` with
`next_repeat = delay_will_end + interval`; a ripe `Repeat` fires once and
advances `next_repeat` by one interval; otherwise nothing fires. -/
def RepeatState.tick (st : RepeatState) (now : Nat) : RepeatState × Option Action :=
  match st with
  | .None => (.None, none)
  | .Delay info delay_will_end action key =>
      if (delay_will_end - now) / nsPerMs = 0 then
        (.Repeat info (delay_will_end + info.interval) action key, some action)
      else
        (.Delay info delay_will_end action key, none)
  | .Repeat info next_repeat action key =>
      if (next_repeat - now) / nsPerMs = 0 then
        (.Repeat info (next_repeat + info.interval) action key, some action)
      else
        (.Repeat info next_repeat action key, none)

/-- Iterate `request_frame` over a list of candidate fresh tokens, keeping the
window state (the N redraw requests of the coalescing claim). -/
def request_frame_list (w : Window) (l : List Nat) : Window :=
  l.foldl (fun w2 f => (w2.request_frame f).1) w

/-- Events whose handler reaches `Window::frame` unconditionally are safe to
deliver only once the window is mapped: actions (`handle_action` always calls
`frame`) and scale reports for an output the surface overlaps
(`wl_output_cb`). All other events request frames only through the guarded
`request_frame`, or set `mapped` first. -/
def safeEv (s : MState) : Ev → Bool
  | .action _ => s.window.mapped
  | .outputScale i _ => !(s.window.outputs.contains i) || s.window.mapped
  | _ => true

/-- A trace is safe when every event is safe in the state it is delivered in. -/
def safeTrace : MState → List Ev → Bool
  | _, [] => true
  | s, e :: es => safeEv s e && safeTrace (step s e) es

/-- Invariant backing the mapped assertion: the assertion has held so far,
and a frame token is only outstanding while the window is mapped. -/
def assertInv (s : MState) : Prop :=
  s.mappedAssertOk = true ∧ (s.window.wl_frame_cb = none ∨ s.window.mapped = true)

/-! Helper lemmas shared by the claim theorems. -/

theorem pinchFold_fallback (width height : Nat) (us : List PinchUpdate)
    (p : ImageTransform × PinchGestureState) :
    (us.foldl (fun q u => pinchUpdateStep width height q.1 q.2 u) p).2.fallback_transform
      = p.2.fallback_transform := by
  induction us generalizing p with
  | nil => rfl
  | cons u us ih =>
      simp only [List.foldl]
      rw [ih]
      rfl

theorem xdgToplevelConfigure_fields (w : Window) (ew eh : Int) (sts : List Nat) :
    (xdgToplevelConfigure w ew eh sts).outputs = w.outputs ∧
    (xdgToplevelConfigure w ew eh sts).scale120 = w.scale120 ∧
    (xdgToplevelConfigure w ew eh sts).mapped = w.mapped ∧
    (xdgToplevelConfigure w ew eh sts).wl_frame_cb = w.wl_frame_cb ∧
    (xdgToplevelConfigure w ew eh sts).closed = w.closed := by
  unfold xdgToplevelConfigure
  split <;> split <;> simp

theorem xdgToplevelConfigure_width_zero (w : Window) (eh : Int) (sts : List Nat) :
    (xdgToplevelConfigure w 0 eh sts).width = w.width := by
  unfold xdgToplevelConfigure
  split <;> split <;> simp_all

theorem xdgToplevelConfigure_height_zero (w : Window) (ew : Int) (sts : List Nat) :
    (xdgToplevelConfigure w ew 0 sts).height = w.height := by
  unfold xdgToplevelConfigure
  split <;> split <;> simp_all

/-! Claim C2. -/

/-- C2: applying `Action::Zoom {x := ax, y := ay, val := m}` to a transform
`(x0, y0, s0)` with `s0 > 0` preserves the image-local coordinate of the
anchor on both axes whenever the resulting scale `s0 + m * s0 * (-0.01)` is
positive, over exact arithmetic. -/
theorem zoom_preserves_anchor (width height : Nat) (x0 y0 s0 ax ay m : ℚ)
    (hs0 : 0 < s0) (hs1 : 0 < s0 + m * s0 * (-1 / 100)) :
    (ax - x0) / s0
        = (ax - (applyAction width height ⟨x0, y0, s0⟩ (.Zoom ax ay m)).x)
            / (applyAction width height ⟨x0, y0, s0⟩ (.Zoom ax ay m)).scale ∧
    (ay - y0) / s0
        = (ay - (applyAction width height ⟨x0, y0, s0⟩ (.Zoom ax ay m)).y)
            / (applyAction width height ⟨x0, y0, s0⟩ (.Zoom ax ay m)).scale := by
  have h0 : s0 ≠ 0 := ne_of_gt hs0
  have h1 : s0 + m * s0 * (-1 / 100) ≠ 0 := ne_of_gt hs1
  have key : ∀ c0 a : ℚ,
      (a - c0) / s0
        = (a - (c0 + (c0 - a) * (m * s0 * (-1 / 100)) / s0))
            / (s0 + m * s0 * (-1 / 100)) := by
    intro c0 a
    rw [div_eq_div_iff h0 h1]
    field_simp
    ring
  simp only [applyAction]
  exact ⟨key x0 ax, key y0 ay⟩

/-- C2 witness: concrete instance with `s0 = 1`, anchor `(2, 3)`, magnitude
`10`, hence new scale `9/10 > 0`. -/
theorem zoom_preserves_anchor_witness :
    (0 : ℚ) < 1 ∧ (0 : ℚ) < 1 + 10 * 1 * (-1 / 100) ∧
    ((2 : ℚ) - 0) / 1
        = ((2 : ℚ) - (applyAction 400 300 ⟨0, 0, 1⟩ (.Zoom 2 3 10)).x)
            / (applyAction 400 300 ⟨0, 0, 1⟩ (.Zoom 2 3 10)).scale :=
  ⟨by norm_num, by norm_num,
    (zoom_preserves_anchor 400 300 0 0 1 2 3 10 (by norm_num) (by norm_num)).1⟩

/-! Claim C5. -/

/-- C5: a two-finger pinch begin from transform `t0`, followed by any
sequence of pinch updates (each panning by `(dx, dy)` and zooming with
magnitude `(new_scale - prev_scale) * -100` anchored at the pointer), then an
end carrying the cancelled flag, restores the transform exactly to `t0`. -/
theorem pinch_cancel_rollback (width height : Nat) (t0 : ImageTransform)
    (us : List PinchUpdate) :
    cancelledPinchGesture width height t0 us = t0 := by
  have h : cancelledPinchGesture width height t0 us
      = (pinchEnd 1
          ((us.foldl (fun p u => pinchUpdateStep width height p.1 p.2 u)
            (t0, { prev_scale := 1, fallback_transform := t0 })).1)
          ((us.foldl (fun p u => pinchUpdateStep width height p.1 p.2 u)
            (t0, { prev_scale := 1, fallback_transform := t0 })).2)).1 := rfl
  have h2 : ∀ (a : ImageTransform) (b : PinchGestureState),
      (pinchEnd 1 a b).1 = b.fallback_transform := fun _ _ => rfl
  rw [h, h2, pinchFold_fallback]

/-! Claim C6. -/

/-- C6: move-transaction exclusivity — with seat `A` owning the transaction,
a left press or release by a different seat `B`, or a pointer leave by `B`,
leaves the transaction owned by `A`; a release or leave by the owner `A`
clears it; a press with no active transaction starts one for the pressing
seat. -/
theorem move_transaction_exclusive (A B : Nat) (h : A ≠ B) :
    pointerButton (some A) B LEFT_PTR_BUTTON .Pressed = some A ∧
    pointerButton (some A) B LEFT_PTR_BUTTON .Released = some A ∧
    pointerLeave (some A) B = some A ∧
    pointerButton (some A) A LEFT_PTR_BUTTON .Released = none ∧
    pointerLeave (some A) A = none ∧
    pointerButton none B LEFT_PTR_BUTTON .Pressed = some B := by
  simp [pointerButton, pointerLeave, h]

/-- C6 witness: seats `0` and `1`. -/
theorem move_transaction_exclusive_witness :
    pointerButton (some 0) 1 LEFT_PTR_BUTTON .Pressed = some 0 ∧
    pointerButton (some 0) 1 LEFT_PTR_BUTTON .Released = some 0 ∧
    pointerLeave (some 0) 1 = some 0 ∧
    pointerButton (some 0) 0 LEFT_PTR_BUTTON .Released = none ∧
    pointerLeave (some 0) 0 = none ∧
    pointerButton none 1 LEFT_PTR_BUTTON .Pressed = some 1 := by
  have h := move_transaction_exclusive 0 1 (by decide)
  exact ⟨h.1, h.2.1, h.2.2.1, h.2.2.2.1, h.2.2.2.2.1, h.2.2.2.2.2⟩

/-! Claim C3. -/

/-- C3: `request_frame` is a no-op — no token registered, no commit, no
window field changed — unless the window is mapped with no outstanding
token; in that case it registers exactly one fresh token, commits the
surface, and changes no other field, so at most one token is ever
outstanding. -/
theorem request_frame_spec (w : Window) (fresh : Nat) :
    (¬(w.mapped = true ∧ w.wl_frame_cb = none) →
        w.request_frame fresh = (w, false)) ∧
    (w.mapped = true → w.wl_frame_cb = none →
        (w.request_frame fresh).1.wl_frame_cb = some fresh ∧
        (w.request_frame fresh).2 = true ∧
        (w.request_frame fresh).1.outputs = w.outputs ∧
        (w.request_frame fresh).1.scale120 = w.scale120 ∧
        (w.request_frame fresh).1.mapped = w.mapped ∧
        (w.request_frame fresh).1.width = w.width ∧
        (w.request_frame fresh).1.height = w.height ∧
        (w.request_frame fresh).1.fullscreen = w.fullscreen ∧
        (w.request_frame fresh).1.closed = w.closed) := by
  unfold Window.request_frame
  constructor
  · intro h
    rw [if_neg h]
  · intro h1 h2
    rw [if_pos ⟨h1, h2⟩]
    simp

/-- C3 witness: on the fresh unmapped window a request is a no-op; on a
mapped token-free window it registers token `7` and commits. -/
theorem request_frame_spec_witness :
    Window.new.request_frame 7 = (Window.new, false) ∧
    (({ Window.new with mapped := true } : Window).request_frame 7).1.wl_frame_cb
      = some 7 ∧
    (({ Window.new with mapped := true } : Window).request_frame 7).2 = true := by
  refine ⟨(request_frame_spec Window.new 7).1 (by simp [Window.new]), ?_, ?_⟩
  · exact ((request_frame_spec { Window.new with mapped := true } 7).2 rfl rfl).1
  · exact ((request_frame_spec { Window.new with mapped := true } 7).2 rfl rfl).2.1

/-! Claim C10. -/

/-- C10: a toplevel configure with width 0 keeps the stored width, one with
height 0 keeps the stored height (initially 400 by 300 from `Window::new`),
and a configure never changes any window field other than `width`, `height`
and `fullscreen`. -/
theorem configure_keeps_fields (w : Window) (ew eh : Int) (sts : List Nat) :
    (xdgToplevelConfigure w 0 eh sts).width = w.width ∧
    (xdgToplevelConfigure w ew 0 sts).height = w.height ∧
    (xdgToplevelConfigure w ew eh sts).outputs = w.outputs ∧
    (xdgToplevelConfigure w ew eh sts).scale120 = w.scale120 ∧
    (xdgToplevelConfigure w ew eh sts).mapped = w.mapped ∧
    (xdgToplevelConfigure w ew eh sts).wl_frame_cb = w.wl_frame_cb ∧
    (xdgToplevelConfigure w ew eh sts).closed = w.closed ∧
    Window.new.width = 400 ∧ Window.new.height = 300 := by
  have h := xdgToplevelConfigure_fields w ew eh sts
  exact ⟨xdgToplevelConfigure_width_zero w eh sts,
    xdgToplevelConfigure_height_zero w ew sts,
    h.1, h.2.1, h.2.2.1, h.2.2.2.1, h.2.2.2.2, rfl, rfl⟩

/-! Claim C7. -/

/-- C7: absent `u32` overflow, the pixel dimension computed at frame time for
logical size `d` and fractional numerator `n` is `(d * n + 60) / 120`, which
rounds `d * n / 120` half away from zero (fractional part below one half
rounds down, at least one half rounds up); the committed stride is the pixel
width times 4 bytes. -/
theorem scale_rounding (d n : Nat) (h : d * n + 60 < 2 ^ 32) :
    pixDim d n = (d * n + 60) / 120 ∧
    (2 * (d * n % 120) < 120 → pixDim d n = d * n / 120) ∧
    (120 ≤ 2 * (d * n % 120) → pixDim d n = d * n / 120 + 1) ∧
    (∀ (w : Window) (outs : List Output), w.scale120 = some n → w.width = d →
        (frameBufferSpec w outs).1 = pixDim d n ∧
        (frameBufferSpec w outs).2.2.1 = pixDim d n * 4) := by
  have hp : pixDim d n = (d * n + 60) / 120 := by
    unfold pixDim wrap32
    omega
  refine ⟨hp, ?_, ?_, ?_⟩
  · intro hr
    rw [hp]
    omega
  · intro hr
    rw [hp]
    omega
  · intro w outs hs hd
    have hb : frameBufferSpec w outs
        = (pixDim w.width n, pixDim w.height n,
            wrap32 (pixDim w.width n * 4), (n : ℚ) / 120) := by
      unfold frameBufferSpec
      rw [hs]
    rw [hb, hd]
    refine ⟨rfl, ?_⟩
    show wrap32 (pixDim d n * 4) = pixDim d n * 4
    unfold wrap32
    rw [hp]
    omega

/-- C7 witness: logical size 399 at fractional numerator 180 gives pixel
size 599 and stride 2396. -/
theorem scale_rounding_witness :
    399 * 180 + 60 < 2 ^ 32 ∧
    pixDim 399 180 = 599 ∧
    (frameBufferSpec { Window.new with scale120 := some 180, width := 399 } []).1
      = 599 ∧
    (frameBufferSpec { Window.new with scale120 := some 180, width := 399 } []).2.2.1
      = 599 * 4 := by
  have h := scale_rounding 399 180 (by norm_num)
  have h599 : pixDim 399 180 = 599 := by rw [h.1]
  have hw := h.2.2.2 { Window.new with scale120 := some 180, width := 399 } [] rfl rfl
  exact ⟨by norm_num, h599, by rw [hw.1, h599], by rw [hw.2, h599]⟩

/-! Claim C4. -/

/-- Scales of the outputs the surface currently overlaps, the iterator chain
inside `get_int_scale`. -/
def memberScales (w : Window) (outputs : List Output) : List Nat :=
  (outputs.filter (fun o => w.outputs.contains o.id)).map Output.scale

theorem foldrMax_le_init (x : Nat) (xs : List Nat) : x ≤ xs.foldr Nat.max x := by
  induction xs with
  | nil => exact Nat.le_refl x
  | cons y ys ih => exact Nat.le_trans ih (Nat.le_max_right y (ys.foldr Nat.max x))

theorem foldrMax_mem (x : Nat) (xs : List Nat) : xs.foldr Nat.max x ∈ x :: xs := by
  induction xs with
  | nil => exact List.mem_singleton.mpr rfl
  | cons y ys ih =>
      show max y (ys.foldr Nat.max x) ∈ x :: y :: ys
      rcases max_choice y (ys.foldr Nat.max x) with h | h <;> rw [h]
      · exact List.mem_cons_of_mem x (List.mem_cons_self y ys)
      · rcases List.mem_cons.mp ih with h1 | h1
        · exact List.mem_cons.mpr (Or.inl h1)
        · exact List.mem_cons_of_mem x (List.mem_cons_of_mem y h1)

theorem foldrMax_ub (x : Nat) (xs : List Nat) :
    ∀ y ∈ xs, y ≤ xs.foldr Nat.max x := by
  induction xs with
  | nil => intro y hy; cases hy
  | cons z zs ih =>
      intro y hy
      rcases List.mem_cons.mp hy with h | h
      · rw [h]; exact Nat.le_max_left z (zs.foldr Nat.max x)
      · exact Nat.le_trans (ih y h) (Nat.le_max_right z (zs.foldr Nat.max x))

theorem maxOr1_spec (l : List Nat) :
    (l = [] → maxOr1 l = 1) ∧
    (l ≠ [] → maxOr1 l ∈ l ∧ ∀ y ∈ l, y ≤ maxOr1 l) := by
  constructor
  · intro h; rw [h]; rfl
  · intro h
    match l with
    | [] => exact absurd rfl h
    | x :: xs =>
        refine ⟨foldrMax_mem x xs, ?_⟩
        intro y hy
        rcases List.mem_cons.mp hy with h1 | h1
        · rw [h1]; exact foldrMax_le_init x xs
        · exact foldrMax_ub x xs y h1

theorem get_int_scale_none_char (w : Window) (outs : List Output)
    (h : w.scale120 = none) :
    (memberScales w outs = [] → w.get_int_scale outs = 1) ∧
    (memberScales w outs ≠ [] →
        w.get_int_scale outs ∈ memberScales w outs ∧
        ∀ y ∈ memberScales w outs, y ≤ w.get_int_scale outs) := by
  have hg : w.get_int_scale outs = maxOr1 (memberScales w outs) := by
    unfold Window.get_int_scale memberScales
    rw [h]
  rw [hg]
  exact maxOr1_spec (memberScales w outs)

theorem globalRemove_window (outs : List Output) (w : Window) (name : Nat) :
    (globalRemove outs w name).2.scale120 = w.scale120 ∧
    (globalRemove outs w name).2.mapped = w.mapped ∧
    (globalRemove outs w name).2.wl_frame_cb = w.wl_frame_cb := by
  unfold globalRemove
  split
  · exact ⟨rfl, rfl, rfl⟩
  · split
    · exact ⟨rfl, rfl, rfl⟩
    · exact ⟨rfl, rfl, rfl⟩

/-- C4: the effective scale is the fractional scale when one has been
reported — the renderer scale is exactly `scale120 / 120`, the integer
(cursor) scale is independent of output membership and, absent `u32`
overflow in `scale120 + 119`, equals the ceiling `(scale120 + 119) / 120` —
otherwise it is the maximum integer scale among the outputs the surface
overlaps, 1 when it overlaps none; after a registry removal the same
characterization holds for the remaining overlapped outputs, so removing the
last overlapped output leaves scale 1. -/
theorem effective_scale_spec (w : Window) (outs : List Output) (name : Nat) :
    (∀ s, w.scale120 = some s →
        (frameBufferSpec w outs).2.2.2 = (s : ℚ) / 120 ∧
        (∀ outs2 : List Output, w.get_int_scale outs2 = w.get_int_scale outs) ∧
        (s + 119 < 2 ^ 32 → w.get_int_scale outs = (s + 119) / 120)) ∧
    (w.scale120 = none →
        (frameBufferSpec w outs).2.2.2 = (w.get_int_scale outs : ℚ) ∧
        (memberScales w outs = [] → w.get_int_scale outs = 1) ∧
        (memberScales w outs ≠ [] →
            w.get_int_scale outs ∈ memberScales w outs ∧
            ∀ y ∈ memberScales w outs, y ≤ w.get_int_scale outs)) ∧
    (w.scale120 = none →
        (memberScales (globalRemove outs w name).2 (globalRemove outs w name).1 = [] →
            (globalRemove outs w name).2.get_int_scale (globalRemove outs w name).1 = 1) ∧
        (memberScales (globalRemove outs w name).2 (globalRemove outs w name).1 ≠ [] →
            (globalRemove outs w name).2.get_int_scale (globalRemove outs w name).1
              ∈ memberScales (globalRemove outs w name).2 (globalRemove outs w name).1 ∧
            ∀ y ∈ memberScales (globalRemove outs w name).2 (globalRemove outs w name).1,
              y ≤ (globalRemove outs w name).2.get_int_scale
                    (globalRemove outs w name).1)) := by
  refine ⟨?_, ?_, ?_⟩
  · intro s hs
    have hb : (frameBufferSpec w outs).2.2.2 = (s : ℚ) / 120 := by
      unfold frameBufferSpec
      rw [hs]
    have hi : ∀ outs2 : List Output, w.get_int_scale outs2 = wrap32 (s + 119) / 120 := by
      intro outs2
      unfold Window.get_int_scale
      rw [hs]
    refine ⟨hb, fun outs2 => (hi outs2).trans (hi outs).symm, fun hbound => ?_⟩
    rw [hi outs]
    unfold wrap32
    omega
  · intro h
    have hb : (frameBufferSpec w outs).2.2.2 = (w.get_int_scale outs : ℚ) := by
      unfold frameBufferSpec
      rw [h]
    exact ⟨hb, get_int_scale_none_char w outs h⟩
  · intro h
    have h2 : (globalRemove outs w name).2.scale120 = none := by
      rw [(globalRemove_window outs w name).1, h]
    exact get_int_scale_none_char (globalRemove outs w name).2
      (globalRemove outs w name).1 h2

/-- C4 witness: one output (registry name 9, id 5, scale 2) overlapped by the
surface gives integer scale 2; removing registry global 9 drops membership
and the scale falls back to 1; a reported fractional numerator 180 (which
satisfies the no-overflow bound) gives integer scale 2 with no outputs. -/
theorem effective_scale_spec_witness :
    ({ Window.new with outputs := [5] } : Window).get_int_scale
        [{ reg_name := 9, id := 5, scale := 2 }] = 2 ∧
    (globalRemove [{ reg_name := 9, id := 5, scale := 2 }]
        { Window.new with outputs := [5] } 9).2.get_int_scale
      (globalRemove [{ reg_name := 9, id := 5, scale := 2 }]
        { Window.new with outputs := [5] } 9).1 = 1 ∧
    180 + 119 < 2 ^ 32 ∧
    ({ Window.new with scale120 := some 180 } : Window).get_int_scale [] = 2 := by
  have h := effective_scale_spec { Window.new with outputs := [5] }
    [{ reg_name := 9, id := 5, scale := 2 }] 9
  have h1 := (h.2.1 rfl).2.2 (by decide)
  have h2 := (h.2.2 rfl).1 (by decide)
  have hf := effective_scale_spec { Window.new with scale120 := some 180 } [] 0
  have hceil := (hf.1 180 rfl).2.2 (by norm_num)
  refine ⟨?_, h2, by norm_num, by rw [hceil]⟩
  have hmem := h1.1
  have hub := h1.2
  have : memberScales { Window.new with outputs := [5] }
      [{ reg_name := 9, id := 5, scale := 2 }] = [2] := by decide
  rw [this] at hmem
  exact List.mem_singleton.mp hmem

/-! Claim C1. -/

/-- C1 counterexample: with a frame token outstanding (`wl_frame_cb = some 0`)
on a mapped window, a redraw request changes no window field at all and
issues no commit — there is no `redraw_pending` field and nothing records the
request, contradicting "the pending redraw is recorded
(`redraw_pending = true`)". -/
theorem throttled_request_records_nothing :
    ({ Window.new with mapped := true, wl_frame_cb := some 0 } : Window).request_frame 1
      = ({ Window.new with mapped := true, wl_frame_cb := some 0 }, false) := by
  decide

/-- C1 (amended): N redraw requests issued while a frame token is outstanding
are all no-ops (nothing is recorded), and when the compositor releases the
token the frame callback clears it and unconditionally performs exactly one
redraw — so the net effect of any N ≥ 1 throttled requests is exactly one
catch-up redraw after the release, never N and never zero. -/
theorem frame_coalescing (s : MState) (cb : Nat) (l : List Nat)
    (hcb : s.window.wl_frame_cb = some cb) (hm : s.window.mapped = true) :
    request_frame_list s.window l = s.window ∧
    (∀ f : Nat, s.window.request_frame f = (s.window, false)) ∧
    (step s (.frameDone cb)).redraws = s.redraws + 1 ∧
    (step s (.frameDone cb)).window.wl_frame_cb = none ∧
    (step s (.frameDone cb)).mappedAssertOk = s.mappedAssertOk := by
  have hnoop : ∀ f, s.window.request_frame f = (s.window, false) := by
    intro f
    unfold Window.request_frame
    rw [if_neg]
    rintro ⟨_, h2⟩
    rw [hcb] at h2
    exact Option.noConfusion h2
  have hlist : request_frame_list s.window l = s.window := by
    unfold request_frame_list
    induction l with
    | nil => rfl
    | cons f fs ih =>
        rw [List.foldl_cons, hnoop f]
        exact ih
  have hstep : step s (.frameDone cb)
      = doFrame { s with window := { s.window with wl_frame_cb := none } } := by
    show (if s.window.wl_frame_cb = some cb then
        doFrame { s with window := { s.window with wl_frame_cb := none } } else s)
      = doFrame { s with window := { s.window with wl_frame_cb := none } }
    rw [if_pos hcb]
  have hdo : doFrame { s with window := { s.window with wl_frame_cb := none } }
      = { s with window := { s.window with wl_frame_cb := none },
                 redraws := s.redraws + 1 } := by
    unfold doFrame
    rw [if_pos]
    exact hm
  rw [hstep, hdo]
  exact ⟨hlist, hnoop, rfl, rfl, rfl⟩

/-- C1 witness: three throttled requests on a mapped window with token `0`
record nothing, and the token release performs exactly one redraw. -/
theorem frame_coalescing_witness :
    request_frame_list { Window.new with mapped := true, wl_frame_cb := some 0 } [1, 2, 3]
      = { Window.new with mapped := true, wl_frame_cb := some 0 } ∧
    (step { initState with
        window := { Window.new with mapped := true, wl_frame_cb := some 0 } }
      (.frameDone 0)).redraws = 1 := by
  have h := frame_coalescing
    { initState with window := { Window.new with mapped := true, wl_frame_cb := some 0 } }
    0 [1, 2, 3] rfl rfl
  exact ⟨h.1, h.2.2.1⟩

/-! Claim C8. -/

/-- C8 counterexample: a tick one nanosecond before the delay deadline
already fires the action, because `tick` compares the whole milliseconds of
the remaining duration to zero — refuting "ticks before the deadline emit
nothing". -/
theorem repeat_tick_fires_early :
    500 * nsPerMs - 1 < 500 * nsPerMs ∧
    ((RepeatState.Delay { delay := 500 * nsPerMs, interval := 100 * nsPerMs }
        (500 * nsPerMs) Action.MoveLeft 1).tick (500 * nsPerMs - 1)).2
      = some Action.MoveLeft := by
  constructor
  · decide
  · decide

/-- C8 (amended): a tick at or after the deadline in the `Delay` state emits
the action exactly once and moves to `Repeat` with
`next_repeat = delay_will_end + interval` (not `now + interval`); a ripe
`Repeat` tick emits exactly once and advances `next_repeat` by exactly one
interval; ticks at least one millisecond before the deadline emit nothing
(ticks within the final millisecond also fire, as `as_millis` truncates). -/
theorem repeat_tick_cadence (info : RepeatInfo) (t nr : Nat) (a : Action)
    (k now : Nat) :
    (t ≤ now →
      (RepeatState.Delay info t a k).tick now
        = (.Repeat info (t + info.interval) a k, some a)) ∧
    (now + nsPerMs ≤ t →
      (RepeatState.Delay info t a k).tick now = (.Delay info t a k, none)) ∧
    (nr ≤ now →
      (RepeatState.Repeat info nr a k).tick now
        = (.Repeat info (nr + info.interval) a k, some a)) ∧
    (now + nsPerMs ≤ nr →
      (RepeatState.Repeat info nr a k).tick now = (.Repeat info nr a k, none)) := by
  simp only [RepeatState.tick, nsPerMs]
  refine ⟨?_, ?_, ?_, ?_⟩ <;> intro h
  · rw [if_pos (by omega)]
  · rw [if_neg (by omega)]
  · rw [if_pos (by omega)]
  · rw [if_neg (by omega)]

/-- C8 witness: delay 500 ms, interval 100 ms — a tick at t = 500 ms fires
and schedules 600 ms; a tick at t = 620 ms fires exactly once, scheduling
700 ms; a further tick still at t = 620 ms emits nothing. -/
theorem repeat_tick_cadence_witness :
    (RepeatState.Delay { delay := 500 * nsPerMs, interval := 100 * nsPerMs }
        (500 * nsPerMs) Action.MoveLeft 1).tick (500 * nsPerMs)
      = (RepeatState.Repeat { delay := 500 * nsPerMs, interval := 100 * nsPerMs }
          (600 * nsPerMs) Action.MoveLeft 1, some Action.MoveLeft) ∧
    (RepeatState.Repeat { delay := 500 * nsPerMs, interval := 100 * nsPerMs }
        (600 * nsPerMs) Action.MoveLeft 1).tick (620 * nsPerMs)
      = (RepeatState.Repeat { delay := 500 * nsPerMs, interval := 100 * nsPerMs }
          (700 * nsPerMs) Action.MoveLeft 1, some Action.MoveLeft) ∧
    (RepeatState.Repeat { delay := 500 * nsPerMs, interval := 100 * nsPerMs }
        (700 * nsPerMs) Action.MoveLeft 1).tick (620 * nsPerMs)
      = (RepeatState.Repeat { delay := 500 * nsPerMs, interval := 100 * nsPerMs }
          (700 * nsPerMs) Action.MoveLeft 1, none) := by
  refine ⟨?_, ?_, ?_⟩
  · have h := (repeat_tick_cadence
        { delay := 500 * nsPerMs, interval := 100 * nsPerMs }
        (500 * nsPerMs) 0 Action.MoveLeft 1 (500 * nsPerMs)).1 (Nat.le_refl _)
    rw [h]
    rw [show (600 : Nat) * nsPerMs = 500 * nsPerMs + 100 * nsPerMs by ring]
  · have h := (repeat_tick_cadence
        { delay := 500 * nsPerMs, interval := 100 * nsPerMs }
        0 (600 * nsPerMs) Action.MoveLeft 1 (620 * nsPerMs)).2.2.1
      (by simp [nsPerMs])
    rw [h]
    rw [show (700 : Nat) * nsPerMs = 600 * nsPerMs + 100 * nsPerMs by ring]
  · exact (repeat_tick_cadence
        { delay := 500 * nsPerMs, interval := 100 * nsPerMs }
        0 (700 * nsPerMs) Action.MoveLeft 1 (620 * nsPerMs)).2.2.2
      (by simp [nsPerMs])

/-! Claim C9. -/

theorem assertInv_of_fields (s t : MState) (h1 : t.mappedAssertOk = s.mappedAssertOk)
    (h2 : t.window.wl_frame_cb = s.window.wl_frame_cb)
    (h3 : t.window.mapped = s.window.mapped) (hs : assertInv s) : assertInv t := by
  refine ⟨h1.trans hs.1, ?_⟩
  rcases hs.2 with h | h
  · exact Or.inl (h2.trans h)
  · exact Or.inr (h3.trans h)

theorem assertInv_doFrame (s : MState) (hs : assertInv s)
    (hm : s.window.mapped = true) : assertInv (doFrame s) := by
  unfold doFrame
  rw [if_pos hm]
  exact assertInv_of_fields s _ rfl rfl rfl hs

theorem assertInv_mRequestFrame (s : MState) (hs : assertInv s) :
    assertInv (mRequestFrame s) := by
  by_cases h : s.window.mapped = true ∧ s.window.wl_frame_cb = none
  · have he : mRequestFrame s
        = { s with window := { s.window with wl_frame_cb := some s.nextCb },
                   nextCb := s.nextCb + 1 } := by
      unfold mRequestFrame Window.request_frame
      rw [if_pos h]
      rfl
    rw [he]
    refine ⟨hs.1, Or.inr ?_⟩
    show s.window.mapped = true
    exact h.1
  · have he : mRequestFrame s = s := by
      unfold mRequestFrame Window.request_frame
      rw [if_neg h]
      rfl
    rw [he]
    exact hs

theorem assertInv_step (s : MState) (e : Ev) (hs : assertInv s)
    (he : safeEv s e = true) : assertInv (step s e) := by
  cases e with
  | surfaceEnter o =>
      exact assertInv_mRequestFrame _ (assertInv_of_fields s _ rfl rfl rfl hs)
  | surfaceLeave o =>
      exact assertInv_mRequestFrame _ (assertInv_of_fields s _ rfl rfl rfl hs)
  | preferredBufferScale v => exact assertInv_mRequestFrame _ hs
  | xdgConfigure =>
      show assertInv (if s.window.mapped = true then doFrame s
        else doFrame { s with window := { s.window with mapped := true } })
      split
      · next hm => exact assertInv_doFrame s hs hm
      · exact assertInv_doFrame _ ⟨hs.1, Or.inr rfl⟩ rfl
  | fractionalPreferredScale v =>
      show assertInv (if s.window.scale120 = some v then s
        else mRequestFrame { s with window := { s.window with scale120 := some v } })
      split
      · exact hs
      · exact assertInv_mRequestFrame _ (assertInv_of_fields s _ rfl rfl rfl hs)
  | toplevelConfigure ew eh sts =>
      refine ⟨hs.1, ?_⟩
      rcases hs.2 with h2 | h2
      · exact Or.inl ((xdgToplevelConfigure_fields s.window ew eh sts).2.2.2.1.trans h2)
      · exact Or.inr ((xdgToplevelConfigure_fields s.window ew eh sts).2.2.1.trans h2)
  | toplevelClose => exact assertInv_of_fields s _ rfl rfl rfl hs
  | frameDone cb =>
      show assertInv (if s.window.wl_frame_cb = some cb then
        doFrame { s with window := { s.window with wl_frame_cb := none } } else s)
      split
      · next hcb =>
          have hm : s.window.mapped = true := by
            rcases hs.2 with h2 | h2
            · rw [h2] at hcb; exact Option.noConfusion hcb
            · exact h2
          exact assertInv_doFrame _ ⟨hs.1, Or.inl rfl⟩ hm
      · exact hs
  | action a =>
      exact assertInv_doFrame _ (assertInv_of_fields s _ rfl rfl rfl hs) he
  | outputScale i sc =>
      show assertInv (if s.window.outputs.contains i = true then
          doFrame { s with
            outputs := s.outputs.map
              (fun o => if o.id = i then { o with scale := sc } else o) }
        else { s with
            outputs := s.outputs.map
              (fun o => if o.id = i then { o with scale := sc } else o) })
      split
      · next hc =>
          have hm : s.window.mapped = true := by
            have he2 : (!(s.window.outputs.contains i) || s.window.mapped) = true := he
            rw [hc] at he2
            simpa using he2
          exact assertInv_doFrame _ (assertInv_of_fields s _ rfl rfl rfl hs) hm
      · exact assertInv_of_fields s _ rfl rfl rfl hs
  | globalRemoveEv name =>
      refine ⟨hs.1, ?_⟩
      rcases hs.2 with h2 | h2
      · exact Or.inl ((globalRemove_window s.outputs s.window name).2.2.trans h2)
      · exact Or.inr ((globalRemove_window s.outputs s.window name).2.1.trans h2)

theorem assertInv_run (es : List Ev) (s : MState) (hs : assertInv s)
    (ht : safeTrace s es = true) : assertInv (run s es) := by
  induction es generalizing s with
  | nil => exact hs
  | cons e es ih =>
      have h1 : (safeEv s e && safeTrace (step s e) es) = true := ht
      have h2 := Bool.and_elim_left h1
      have h3 := Bool.and_elim_right h1
      exact ih (step s e) (assertInv_step s e hs h2) h3

/-- C9 counterexample: an `Action` delivered before the first configure
acknowledgment (window still unmapped) reaches `Window::frame` through
`handle_action`, and the `assert!(this.mapped)` at its top fails — refuting
the claim for reachable sequences that include an action before the first
configure. -/
theorem action_before_configure_fails_assert :
    (step initState (Ev.action Action.MoveLeft)).mappedAssertOk = false := by
  decide

/-- C9 (amended): along every event trace from the initial state in which
each `Action` — and each output-scale report for an output the surface
overlaps — is delivered only while the window is mapped (that is, after the
first configure acknowledgment), the `mapped` assertion at the top of
`Window::frame` never fails: whenever a redraw is submitted, the window is
mapped. -/
theorem mapped_assert_holds_on_safe_traces (es : List Ev)
    (h : safeTrace initState es = true) :
    (run initState es).mappedAssertOk = true :=
  (assertInv_run es initState ⟨rfl, Or.inl rfl⟩ h).1

/-- C9 witness: the trace "configure, then move-left action" is safe and
keeps the assertion intact. -/
theorem mapped_assert_holds_on_safe_traces_witness :
    safeTrace initState [Ev.xdgConfigure, Ev.action Action.MoveLeft] = true ∧
    (run initState [Ev.xdgConfigure, Ev.action Action.MoveLeft]).mappedAssertOk
      = true :=
  ⟨by decide,
    mapped_assert_holds_on_safe_traces [Ev.xdgConfigure, Ev.action Action.MoveLeft]
      (by decide)⟩

end Reimv
